import Mathlib

/-!
# Verification of the food-review-analyzer backend

Shallow embedding of `src/food-review-analyzer/backend/app.py` (the resilient
variant with the full fallback chain, the one the specification follows) and
proofs about the claims of the specification.

Conventions of the embedding:
* Python strings are Lean `String`s; `str.strip()`, `str.lower()`, slicing,
  `in`, `split` and the one regular-expression split are embedded by explicit
  structurally-recursive Lean functions below, so that every definition
  evaluates by kernel reduction.
* The three lazily-loaded module globals (`_sentiment_model`, `_summary_model`,
  `_gemini_client`) form a `Globals` record that is threaded through the
  functions that read or write them.  The loaded model objects carry no data
  relevant to the claims, so they are embedded as `Unit`.
* Everything the process receives from the outside world (whether an import
  succeeds, what a model returns, the configured API key) is an `Env` record;
  a fallible external call is a function into `Option` (`none` embeds a
  raised exception).
* The HTTP layer is embedded per handler: a handler is a pure function from
  the decoded JSON payload, the environment and the database contents to a
  response value plus the new database contents.
-/

namespace FoodReview

/-! ## Python string primitives -/

/-- The whitespace class of Python's `str.strip()` and of `\s` in `re`
(restricted to the ASCII range; the texts the claims touch are in this
range). -/
def pyWhitespace (c : Char) : Bool :=
  c = ' ' || c = '\t' || c = '\n' || c = '\r' || c = '\x0b' || c = '\x0c'

/-- The effect of Python's `str.strip()` on a list of characters: drop
leading and trailing whitespace. -/
def pyStripList (l : List Char) : List Char :=
  ((l.dropWhile pyWhitespace).reverse.dropWhile pyWhitespace).reverse

/-- Python `str.strip()`. -/
def py_strip (s : String) : String := ⟨pyStripList s.data⟩

/-- Python `str.lower()`.  `Char.toLower` lowers exactly the ASCII range,
which matches the indicator words and labels the code compares. -/
def py_lower (s : String) : String := ⟨s.data.map Char.toLower⟩

/-- Python slicing `s[:n]` (by code points, as in Python). -/
def py_take (n : ℕ) (s : String) : String := ⟨s.data.take n⟩

/-- Whether `pat` is an initial run of `l`. -/
def leadsWith : List Char → List Char → Bool
  | [], _ => true
  | _ :: _, [] => false
  | p :: ps, c :: cs => p = c && leadsWith ps cs

/-- Whether `pat` occurs somewhere in `l` (Python's `pat in s` for strings). -/
def occursIn (pat : List Char) : List Char → Bool
  | [] => leadsWith pat []
  | c :: rest => leadsWith pat (c :: rest) || occursIn pat rest

/-- Python's substring containment `pat in s`. -/
def strContains (s pat : String) : Bool := occursIn pat.data s.data

/-- The number of positions of `l` at which the non-empty pattern `pat`
occurs (the count of substring occurrences; the indicator words below have no
proper border, so occurrences cannot overlap and this agrees with Python's
non-overlapping `s.count`). -/
def countOcc (pat : List Char) : List Char → ℕ
  | [] => 0
  | c :: rest => (if leadsWith pat (c :: rest) then 1 else 0) + countOcc pat rest

/-- The number of substring occurrences of `pat` in `s`. -/
def countOccurrences (s pat : String) : ℕ := countOcc pat.data s.data

/-- Python `s.split(sep)` for a one-character separator: split at every
occurrence, keeping empty fragments (`"a..b".split(".")` is
`["a", "", "b"]`, `"".split(".")` is `[""]`). -/
def splitOnChar (sep : Char) : List Char → List (List Char)
  | [] => [[]]
  | c :: rest =>
      match splitOnChar sep rest with
      | [] => if c = sep then [[], []] else [[c]]
      | h :: t => if c = sep then [] :: h :: t else (c :: h) :: t

/-! ## Heuristic classifier (`fallback_sentiment`, app.py lines 104–115) -/

/-- The set `_positive_words` (app.py line 104).  The source is a Python set
literal; the embedding keeps one entry per distinct word. -/
def _positive_words : List String :=
  ["baik", "enak", "lezat", "mantap", "bagus", "recommended", "rekomendasi",
   "love", "liked", "penuh", "worth"]

/-- The set `_negative_words` (app.py line 105).  The source set literal
lists "buruk" twice; a Python set keeps a single copy, so the embedding lists
it once. -/
def _negative_words : List String :=
  ["tidak", "buruk", "sepi", "kecewa", "asin", "pahit", "lambat", "mahal",
   "murah", "kurang"]

/-- The function `fallback_sentiment` (app.py lines 107–115): lowercase the
text, count how many positive / negative indicator words occur in it as
substrings (each word contributing at most one, as in
`sum(1 for w in words if w in text_lower)`), and compare the two counts. -/
def fallback_sentiment (text : String) : String × String :=
  let text_lower := py_lower text
  let pos := (_positive_words.filter (fun w => strContains text_lower w)).length
  let neg := (_negative_words.filter (fun w => strContains text_lower w)).length
  if pos > neg then ("positive", "fallback")
  else if neg > pos then ("negative", "fallback")
  else ("neutral", "fallback")

/-- The heuristic classifier as worded by the specification's claim: count
case-insensitive substring occurrences of each indicator word (an indicator
appearing k times contributes k), then compare.  Kept separate from
`fallback_sentiment`, which embeds the source; the theorems below compare the
two. -/
def fallback_sentiment_claim (text : String) : String × String :=
  let text_lower := py_lower text
  let pos := (_positive_words.map (fun w => countOccurrences text_lower w)).sum
  let neg := (_negative_words.map (fun w => countOccurrences text_lower w)).sum
  if pos > neg then ("positive", "fallback")
  else if neg > pos then ("negative", "fallback")
  else ("neutral", "fallback")

/-! ## Process state and environment -/

/-- The three lazily-loaded module globals of app.py (lines 44–46):
`_sentiment_model`, `_summary_model`, `_gemini_client`.  Each is `None`
(`none`) until a load succeeds; the loaded object carries no data relevant to
the claims and is embedded as `Unit`. -/
structure Globals where
  sentiment_model : Option Unit
  summary_model : Option Unit
  gemini_client : Option Unit
deriving DecidableEq, Repr

/-- The initial process state: all three globals are `None`. -/
def Globals.init : Globals := ⟨none, none, none⟩

/-- Everything one call observes from outside the process: whether imports
succeed, whether model construction / configuration succeeds, what the models
and the remote service answer (a call into `Option`, with `none` embedding a
raised exception), and the configured credential. -/
structure Env where
  transformers_import_ok : Bool
  sentiment_load_ok : Bool
  summarizer_load_ok : Bool
  gemini_api_key : Option String
  gemini_import_ok : Bool
  gemini_configure_ok : Bool
  sentiment_infer : String → Option (String × ℚ)
  summarize : String → Option String
  gemini_generate : String → Option String

/-- Truthiness of the optional `GEMINI_API_KEY` string (`os.getenv` yields
`None` when the variable is unset; an empty string is also falsy in
`if not GEMINI_API_KEY`). -/
def keyTruthy : Option String → Bool
  | none => false
  | some s => s ≠ ""

/-! ## Lazy model loading (app.py lines 49–101)

Each loader returns the new globals, the value the Python function returns,
and an instrumentation `Bool` recording whether this call entered the guarded
initialization attempt (the `try` block inside the lock).  The `Bool` is not
part of the source's return value; it only makes "the call (re-)attempted
initialization" expressible in theorems. -/

/-- The loader `load_transformers_sentiment` (app.py lines 49–64): if the
`transformers` import fails, return `None` without touching the global;
otherwise, under the lock, attempt to build the pipeline only when the global
is still `None`, storing it on success and leaving the global `None` on
failure; the global is returned. -/
def load_transformers_sentiment (env : Env) (g : Globals) :
    Globals × Option Unit × Bool :=
  if ¬ env.transformers_import_ok then (g, none, false)
  else
    match g.sentiment_model with
    | some m => (g, some m, false)
    | none =>
        if env.sentiment_load_ok then
          ({ g with sentiment_model := some () }, some (), true)
        else (g, none, true)

/-- The loader `load_transformers_summarizer` (app.py lines 66–81): same
shape as `load_transformers_sentiment`, over `_summary_model`. -/
def load_transformers_summarizer (env : Env) (g : Globals) :
    Globals × Option Unit × Bool :=
  if ¬ env.transformers_import_ok then (g, none, false)
  else
    match g.summary_model with
    | some m => (g, some m, false)
    | none =>
        if env.summarizer_load_ok then
          ({ g with summary_model := some () }, some (), true)
        else (g, none, true)

/-- The loader `load_gemini` (app.py lines 83–101): with no truthy
`GEMINI_API_KEY` the function returns `None` before any import or
configuration; otherwise, if the client-library import fails return `None`;
otherwise, under the lock, configure only when the global is still `None`,
caching the module on success and leaving `None` on failure. -/
def load_gemini (env : Env) (g : Globals) : Globals × Option Unit × Bool :=
  if ¬ keyTruthy env.gemini_api_key then (g, none, false)
  else if ¬ env.gemini_import_ok then (g, none, false)
  else
    match g.gemini_client with
    | some c => (g, some c, false)
    | none =>
        if env.gemini_configure_ok then
          ({ g with gemini_client := some () }, some (), true)
        else (g, none, true)

/-! ## Sentiment analysis (app.py lines 117–133) -/

/-- Python's `f"{score:.2%}"` for a non-negative score, at rational
precision: the score times 100, rendered with exactly two digits after the
decimal point and a trailing percent sign (rounding to nearest; the exact
tie-breaking of IEEE float formatting is irrelevant to the claims). -/
def format_pct_nonneg (q : ℚ) : String :=
  let n : ℕ := (round (q * 10000) : ℤ).toNat
  toString (n / 100) ++ "." ++
    String.mk [Nat.digitChar (n / 10 % 10), Nat.digitChar (n % 10)] ++ "%"

/-- Python's `f"{score:.2%}"`, including a sign for negative scores. -/
def format_pct (q : ℚ) : String :=
  if q < 0 then "-" ++ format_pct_nonneg (-q) else format_pct_nonneg q

/-- The function `analyze_sentiment` (app.py lines 117–133): load the local
classifier; if it is available, run it on the first 512 characters of the
text (`model(text[:512])[0]`, with `env.sentiment_infer` returning `none`
when the call raises, including on an empty result list) and map the
lowercased label by substring match on "pos" / "neg"; on unavailability or
any exception, fall back to `fallback_sentiment`. -/
def analyze_sentiment (env : Env) (g : Globals) (text : String) :
    Globals × String × String :=
  let (g', model, _) := load_transformers_sentiment env g
  match model with
  | some _ =>
      match env.sentiment_infer (py_take 512 text) with
      | some (label, score) =>
          let l := py_lower label
          if strContains l "pos" then (g', "positive", format_pct score)
          else if strContains l "neg" then (g', "negative", format_pct score)
          else (g', "neutral", format_pct score)
      | none => (g', fallback_sentiment text)
  | none => (g', fallback_sentiment text)

/-! ## Key-point extraction (app.py lines 135–165) -/

/-- Sentence-terminal punctuation, the class `[.!?]` of the naive-fallback
pattern. -/
def isSentEnd (c : Char) : Bool := c = '.' || c = '!' || c = '?'

/-- The look-behind `(?<=[.!?])` of the naive-fallback pattern: whether the
character preceding the scan position (the head of the reversed fragment in
progress) is sentence-terminal. -/
def accSentEnd : List Char → Bool
  | p :: _ => isSentEnd p
  | [] => false

/-- One left-to-right pass of `re.split(r'(?<=[.!?])\s+', s)`: a maximal
whitespace run whose preceding character is sentence-terminal separates two
fragments.  The state is `some acc` while building a fragment (`acc` reversed,
so its head is the character preceding the scan position) and `none` while
consuming a separator run. -/
def splitSentAux : List Char → Option (List Char) → List (List Char)
  | [], none => [[]]
  | [], some acc => [acc.reverse]
  | c :: rest, none =>
      if pyWhitespace c then splitSentAux rest none
      else splitSentAux rest (some [c])
  | c :: rest, some acc =>
      if pyWhitespace c && accSentEnd acc
      then acc.reverse :: splitSentAux rest none
      else splitSentAux rest (some (c :: acc))

/-- The split `re.split(r'(?<=[.!?])\s+', s)` on strings. -/
def naive_split (s : String) : List String :=
  (splitSentAux s.data (some [])).map (fun l => ⟨l⟩)

/-- The naive final fallback of `extract_key_points` (app.py lines 161–165):
split the stripped text after sentence-terminal punctuation, keep the first
`max_points` fragments, and emit one `"- "`-prefixed line per fragment whose
strip is non-empty. -/
def naive_key_points (text : String) (max_points : ℕ) : String :=
  let sentences := naive_split (py_strip text)
  let picks := sentences.take max_points
  String.intercalate "\n"
    ((picks.filter (fun s => py_strip s ≠ "")).map (fun s => "- " ++ py_strip s))

/-- The instruction string built by `extract_key_points` for Gemini (app.py
line 141), with `{max_points}` and `{text}` interpolated. -/
def gemini_prompt (max_points : ℕ) (text : String) : String :=
  "Extract up to " ++ toString max_points ++
    " concise bullet points (in Indonesian) from the following restaurant/food review. Focus on food quality, portion, price, service, ambience, and other concrete observations.\n\nReview:\n"
    ++ text ++ "\n\nRespond as bullet points starting with \x27- \x27"

/-- The summarizer-then-naive tail of `extract_key_points` (app.py lines
150–165), reached when the Gemini tier is unavailable or raised: if the local
summarizer loads, summarize (`none` embeds a raised call), split the summary
on ".", strip the fragments, drop empty ones, and bullet the first
`max_points`; on unavailability or exception fall through to
`naive_key_points`. -/
def summarizer_key_points (env : Env) (g : Globals) (text : String)
    (max_points : ℕ) : Globals × String :=
  let (g', summarizer, _) := load_transformers_summarizer env g
  match summarizer with
  | some _ =>
      match env.summarize text with
      | some summary =>
          let bullets := ((splitOnChar '.' summary.data).map
            (fun l => py_strip ⟨l⟩)).filter (fun s => s ≠ "")
          (g', String.intercalate "\n"
            ((bullets.take max_points).map (fun b => "- " ++ b)))
      | none => (g', naive_key_points text max_points)
  | none => (g', naive_key_points text max_points)

/-- The function `extract_key_points` (app.py lines 135–165): try Gemini
first when `load_gemini` yields a client (`env.gemini_generate` applied to
the built prompt; `none` embeds a raised call), returning the generated text
stripped; otherwise fall through to the summarizer tier and then the naive
fallback.  The source's `max_points=5` default is passed explicitly by
callers here. -/
def extract_key_points (env : Env) (g : Globals) (text : String)
    (max_points : ℕ) : Globals × String :=
  let (g', gem, _) := load_gemini env g
  match gem with
  | some _ =>
      match env.gemini_generate (gemini_prompt max_points text) with
      | some kp => (g', py_strip kp)
      | none => summarizer_key_points env g' text max_points
  | none => summarizer_key_points env g' text max_points

/-! ## JSON values and the request payload -/

/-- A decoded JSON value, as Python's `request.get_json` produces it. -/
inductive JVal where
  | jstr (s : String)
  | jnum (q : ℚ)
  | jbool (b : Bool)
  | jnull
  | jarr (xs : List JVal)
  | jobj (fields : List (String × JVal))
deriving Repr

/-- Python truthiness of a decoded JSON value (`None`, `""`, `0`, `[]`, `{}`
and `False` are falsy). -/
def JVal.truthy : JVal → Bool
  | .jstr s => s ≠ ""
  | .jnum q => q ≠ 0
  | .jbool b => b
  | .jnull => false
  | .jarr xs => !xs.isEmpty
  | .jobj fields => !fields.isEmpty

/-- A JSON object body is a key-value list; `dictGet` is Python's
`dict.get`.  JSON parsing keeps the last value of a duplicated key, so the
lookup takes the last matching pair. -/
def dictGet (fields : List (String × JVal)) (k : String) : Option JVal :=
  (fields.reverse.find? (fun kv => kv.1 = k)).map (fun kv => kv.2)

/-- Truthiness of a `dict.get` result (`None` for a missing key is falsy). -/
def optTruthy : Option JVal → Bool
  | none => false
  | some v => v.truthy

/-- The expression `payload.get("review_text") or payload.get("content") or ""`
(app.py line 183): the first truthy value among the two lookups, else `""`.
The payload is the body after `request.get_json(silent=True) or {}`, so a
missing or non-object body is the empty list. -/
def get_review_text (payload : List (String × JVal)) : JVal :=
  if optTruthy (dictGet payload "review_text") then
    (dictGet payload "review_text").getD (.jstr "")
  else if optTruthy (dictGet payload "content") then
    (dictGet payload "content").getD (.jstr "")
  else .jstr ""

/-! ## Persistence (the `Review` model, app.py lines 32–41) -/

/-- A row of the `reviews` table.  `created_at` is the `datetime.utcnow`
default, embedded as an abstract clock value supplied per request. -/
structure Review where
  id : ℕ
  review_text : String
  sentiment : String
  confidence : String
  key_points : String
  created_at : ℕ
deriving DecidableEq, Repr

/-- The autoincrement primary key of a fresh row, embedded as one past the
row count of the database (rows are never deleted). -/
def nextId (db : List Review) : ℕ := db.length + 1

/-! ## Request handlers (app.py lines 179–234) -/

/-- The response of `analyze_review`: HTTP 200 with the stored row, or
HTTP 400 with an error message.  The handler's `except` branch answering 500
is unreachable in the embedding: all adapter failures are absorbed before it
and the embedded database cannot fail. -/
inductive AnalyzeResp where
  | ok (data : Review)
  | badRequest (error : String)
deriving DecidableEq, Repr

/-- The validation error body of app.py line 185. -/
def requiredFieldError : String := "Field \x27review_text\x27 is required"

/-- The handler `analyze_review` (app.py lines 179–213): resolve the review
text from the payload via the `or`-chain, reject non-strings and strings
that strip to empty with a 400, otherwise analyze sentiment and key points
(with `max_points = 5`, the source default) and append a row whose
`review_text` is the stripped text and whose `created_at` is `now`. -/
def analyze_review (env : Env) (g : Globals) (db : List Review)
    (payload : List (String × JVal)) (now : ℕ) :
    Globals × List Review × AnalyzeResp :=
  match get_review_text payload with
  | .jstr s =>
      if py_strip s = "" then (g, db, .badRequest requiredFieldError)
      else
        let (g1, sentiment, confidence) := analyze_sentiment env g s
        let (g2, key_points) := extract_key_points env g1 s 5
        let row : Review :=
          ⟨nextId db, py_strip s, sentiment, confidence, key_points, now⟩
        (g2, db ++ [row], .ok row)
  | _ => (g, db, .badRequest requiredFieldError)

/-- The handler `get_reviews` (app.py lines 215–234): select all rows
ordered by `created_at` descending (ties are resolved arbitrarily by the
store; the embedding uses a stable sort on insertion order) and answer with
the row list and its length as `count`. -/
def get_reviews (db : List Review) : ℕ × List Review :=
  let rows := db.mergeSort (fun a b => b.created_at ≤ a.created_at)
  (rows.length, rows)

/-- A clean fragment of the naive sentence split: non-empty, and neither end
is whitespace (so stripping it is the identity). -/
def cleanFrag (f : List Char) : Prop :=
  f ≠ [] ∧ (∀ x, f.head? = some x → pyWhitespace x = false) ∧
    (∀ x, f.getLast? = some x → pyWhitespace x = false)

/-- The scan invariant of `splitSentAux` on a stripped input: the fragment in
progress never starts with whitespace, the remaining total text never ends
with whitespace, and an empty fragment in progress can only occur at the very
start of non-empty input. -/
def stInv (l : List Char) : Option (List Char) → Prop
  | some acc =>
      (∀ x, acc.getLast? = some x → pyWhitespace x = false) ∧
      (∀ x, (acc.reverse ++ l).getLast? = some x → pyWhitespace x = false) ∧
      (acc = [] → l ≠ [] ∧ ∀ x, l.head? = some x → pyWhitespace x = false)
  | none => l ≠ [] ∧ (∀ x, l.getLast? = some x → pyWhitespace x = false)

/-- A fixture environment for concrete evaluations: no credential, every
dependency fails to load, every external call raises. -/
def envOff : Env :=
  ⟨false, false, false, none, false, false,
   fun _ => none, fun _ => none, fun _ => none⟩

/-- A fixture environment where the `transformers` import succeeds but model
construction raises. -/
def envImportOnly : Env := { envOff with transformers_import_ok := true }

/-- A fixture environment where the `transformers` import succeeds and the
sentiment model loads. -/
def envSentimentOk : Env :=
  { envOff with transformers_import_ok := true, sentiment_load_ok := true }

/-! ## Helper lemmas -/

/-- A non-empty pattern occurs in `l` exactly when its occurrence count is
positive. -/
theorem occursIn_iff_countOcc (pat l : List Char) (hpat : pat ≠ []) :
    occursIn pat l = true ↔ 0 < countOcc pat l := by
  induction l with
  | nil =>
      cases pat with
      | nil => exact absurd rfl hpat
      | cons p ps => simp [occursIn, leadsWith, countOcc]
  | cons c rest ih =>
      rw [occursIn, countOcc]
      cases h : leadsWith pat (c :: rest) with
      | true => simp
      | false => simpa using ih

/-- A character of the head of a `dropWhile` result fails the predicate. -/
theorem dropWhile_head?_false (p : α → Bool) (l : List α) :
    ∀ x, (l.dropWhile p).head? = some x → p x = false := by
  intro x hx
  have h := List.head?_dropWhile_not p l
  rw [hx] at h
  exact h

/-- If the head of a list fails the predicate, `dropWhile` is the
identity. -/
theorem dropWhile_eq_self_of_head? (p : α → Bool) (l : List α)
    (h : ∀ x, l.head? = some x → p x = false) : l.dropWhile p = l := by
  cases l with
  | nil => rfl
  | cons a t => exact List.dropWhile_cons_of_neg (by simp [h a rfl])

/-- `dropWhile` is idempotent. -/
theorem dropWhile_idem (p : α → Bool) (l : List α) :
    (l.dropWhile p).dropWhile p = l.dropWhile p :=
  dropWhile_eq_self_of_head? p _ (dropWhile_head?_false p l)

/-- A non-empty `dropWhile` result keeps the last element of the list. -/
theorem getLast?_dropWhile (p : α → Bool) (l : List α)
    (h : l.dropWhile p ≠ []) : (l.dropWhile p).getLast? = l.getLast? := by
  obtain ⟨t, ht⟩ := List.dropWhile_suffix (l := l) p
  conv_rhs => rw [← ht]
  rw [List.getLast?_append]
  cases hx : (l.dropWhile p).getLast? with
  | none => exact absurd (List.getLast?_eq_none_iff.mp hx) h
  | some x => rfl

/-- Stripping is idempotent on character lists. -/
theorem pyStripList_idem (l : List Char) :
    pyStripList (pyStripList l) = pyStripList l := by
  unfold pyStripList
  set A := l.dropWhile pyWhitespace with hA
  set B := A.reverse.dropWhile pyWhitespace with hB
  have h1 : B.reverse.dropWhile pyWhitespace = B.reverse := by
    apply dropWhile_eq_self_of_head?
    intro x hx
    rw [List.head?_reverse] at hx
    have hBne : B ≠ [] := by
      intro hnil
      rw [hnil] at hx
      exact Option.noConfusion hx
    have hBA : B.getLast? = A.reverse.getLast? := getLast?_dropWhile _ _ hBne
    rw [hBA, List.getLast?_reverse] at hx
    exact dropWhile_head?_false pyWhitespace l x hx
  rw [h1, List.reverse_reverse, hB, dropWhile_idem]

/-- Python's `strip` is idempotent. -/
theorem py_strip_idem (s : String) : py_strip (py_strip s) = py_strip s :=
  congrArg String.mk (pyStripList_idem s.data)

/-- The characters of a stripped list are characters of the list. -/
theorem pyStripList_subset (l : List Char) : ∀ c ∈ pyStripList l, c ∈ l := by
  intro c hc
  unfold pyStripList at hc
  rw [List.mem_reverse] at hc
  have hc2 := List.dropWhile_subset _ hc
  rw [List.mem_reverse] at hc2
  exact List.dropWhile_subset _ hc2

/-- The label produced by the heuristic classifier is one of the three
sentiment values. -/
theorem fallback_sentiment_label (text : String) :
    (fallback_sentiment text).1 = "positive" ∨
    (fallback_sentiment text).1 = "negative" ∨
    (fallback_sentiment text).1 = "neutral" := by
  unfold fallback_sentiment
  dsimp only
  split
  · exact Or.inl rfl
  · split
    · exact Or.inr (Or.inl rfl)
    · exact Or.inr (Or.inr rfl)

/-- The confidence produced by the heuristic classifier is always the
"fallback" tag. -/
theorem fallback_sentiment_tag (text : String) :
    (fallback_sentiment text).2 = "fallback" := by
  unfold fallback_sentiment
  dsimp only
  split
  · rfl
  · split <;> rfl

/-- For a non-empty word, substring containment agrees with a positive
occurrence count. -/
theorem strContains_eq_decide (s w : String) (hw : w.data ≠ []) :
    strContains s w = decide (0 < countOccurrences s w) := by
  have h := occursIn_iff_countOcc w.data s.data hw
  cases hb : occursIn w.data s.data with
  | false =>
      have hc : ¬ 0 < countOcc w.data s.data := by
        intro hp
        rw [← h] at hp
        exact absurd hp (by simp [hb])
      simp [strContains, countOccurrences, hb, hc]
  | true =>
      have hc : 0 < countOcc w.data s.data := h.mp hb
      simp [strContains, countOccurrences, hb, hc]

/-- Sentence-terminal punctuation is never whitespace. -/
theorem isSentEnd_not_ws (c : Char) (h : isSentEnd c = true) :
    pyWhitespace c = false := by
  simp only [isSentEnd, Bool.or_eq_true, decide_eq_true_eq] at h
  rcases h with (rfl | rfl) | rfl <;> rfl

/-- Every fragment the naive splitter emits from a state satisfying the scan
invariant is clean: non-empty with non-whitespace ends. -/
theorem splitSentAux_clean (l : List Char) (st : Option (List Char))
    (hinv : stInv l st) : ∀ f ∈ splitSentAux l st, cleanFrag f := by
  induction l generalizing st with
  | nil =>
      cases st with
      | none => exact absurd rfl hinv.1
      | some acc =>
          obtain ⟨h1, h2, h3⟩ := hinv
          have hacc : acc ≠ [] := fun h => absurd rfl (h3 h).1
          intro f hf
          have hstep : splitSentAux [] (some acc) = [acc.reverse] := rfl
          rw [hstep, List.mem_singleton] at hf
          subst hf
          refine ⟨by simpa using hacc, ?_, ?_⟩
          · intro x hx
            rw [List.head?_reverse] at hx
            exact h1 x hx
          · intro x hx
            apply h2 x
            rwa [List.append_nil]
  | cons c rest ih =>
      cases st with
      | none =>
          obtain ⟨hne, hlast⟩ := hinv
          intro f hf
          have hstep : splitSentAux (c :: rest) none =
              (if pyWhitespace c then splitSentAux rest none
               else splitSentAux rest (some [c])) := rfl
          rw [hstep] at hf
          by_cases hw : pyWhitespace c = true
          · rw [if_pos hw] at hf
            have hr : rest ≠ [] := by
              intro h
              subst h
              have hws := hlast c rfl
              rw [hw] at hws
              exact Bool.noConfusion hws
            refine ih none ⟨hr, ?_⟩ f hf
            intro x hx
            apply hlast x
            rw [show c :: rest = [c] ++ rest from rfl, List.getLast?_append, hx]
            rfl
          · rw [if_neg hw] at hf
            refine ih (some [c]) ⟨?_, ?_, by simp⟩ f hf
            · intro x hx
              simp only [List.getLast?_singleton, Option.some.injEq] at hx
              subst hx
              simpa using hw
            · intro x hx
              apply hlast x
              simpa using hx
      | some acc =>
          obtain ⟨h1, h2, h3⟩ := hinv
          intro f hf
          have hstep : splitSentAux (c :: rest) (some acc) =
              (if pyWhitespace c && accSentEnd acc then
                acc.reverse :: splitSentAux rest none
              else splitSentAux rest (some (c :: acc))) := rfl
          rw [hstep] at hf
          by_cases hc : (pyWhitespace c && accSentEnd acc) = true
          · rw [if_pos hc] at hf
            rw [Bool.and_eq_true] at hc
            obtain ⟨hw, hse⟩ := hc
            have haccne : acc ≠ [] := by
              intro h
              subst h
              exact Bool.noConfusion hse
            have hrestne : rest ≠ [] := by
              intro h
              subst h
              have hws := h2 c (by rw [List.getLast?_append]; rfl)
              rw [hw] at hws
              exact Bool.noConfusion hws
            rcases List.mem_cons.mp hf with rfl | hf2
            · refine ⟨by simpa using haccne, ?_, ?_⟩
              · intro x hx
                rw [List.head?_reverse] at hx
                exact h1 x hx
              · intro x hx
                rw [List.getLast?_reverse] at hx
                cases acc with
                | nil => exact absurd rfl haccne
                | cons p t =>
                    simp only [List.head?_cons, Option.some.injEq] at hx
                    subst hx
                    exact isSentEnd_not_ws p (by simpa [accSentEnd] using hse)
            · refine ih none ⟨hrestne, ?_⟩ f hf2
              intro x hx
              apply h2 x
              rw [show c :: rest = [c] ++ rest from rfl, ← List.append_assoc,
                List.getLast?_append, hx]
              rfl
          · rw [if_neg hc] at hf
            refine ih (some (c :: acc)) ⟨?_, ?_, by simp⟩ f hf
            · intro x hx
              cases hacc : acc with
              | nil =>
                  subst hacc
                  simp only [List.getLast?_singleton, Option.some.injEq] at hx
                  subst hx
                  exact (h3 rfl).2 c rfl
              | cons p t =>
                  subst hacc
                  rw [List.getLast?_cons_cons] at hx
                  exact h1 x hx
            · intro x hx
              apply h2 x
              rw [List.reverse_cons, List.append_assoc] at hx
              exact hx

/-- Stripping a list whose two ends are non-whitespace is the identity. -/
theorem pyStripList_eq_self (f : List Char)
    (hh : ∀ x, f.head? = some x → pyWhitespace x = false)
    (hl : ∀ x, f.getLast? = some x → pyWhitespace x = false) :
    pyStripList f = f := by
  unfold pyStripList
  rw [dropWhile_eq_self_of_head? _ _ hh]
  rw [dropWhile_eq_self_of_head? _ _ (by
    intro x hx
    rw [List.head?_reverse] at hx
    exact hl x hx)]
  exact List.reverse_reverse f

/-- A stripped list never starts with whitespace. -/
theorem pyStripList_head? (l : List Char) :
    ∀ x, (pyStripList l).head? = some x → pyWhitespace x = false := by
  intro x hx
  unfold pyStripList at hx
  rw [List.head?_reverse] at hx
  by_cases hne : (l.dropWhile pyWhitespace).reverse.dropWhile pyWhitespace = []
  · rw [hne] at hx
    exact Option.noConfusion hx
  · rw [getLast?_dropWhile _ _ hne, List.getLast?_reverse] at hx
    exact dropWhile_head?_false pyWhitespace l x hx

/-- A stripped list never ends with whitespace. -/
theorem pyStripList_getLast? (l : List Char) :
    ∀ x, (pyStripList l).getLast? = some x → pyWhitespace x = false := by
  intro x hx
  unfold pyStripList at hx
  rw [List.getLast?_reverse] at hx
  exact dropWhile_head?_false pyWhitespace _ x hx

/-- On a text that strips to something non-empty, every sentence the naive
split produces is non-empty and is its own strip: the source's
take-then-filter therefore keeps exactly the first sentences. -/
theorem naive_split_clean (s : String) (hne : py_strip s ≠ "") :
    ∀ t ∈ naive_split (py_strip s), t ≠ "" ∧ py_strip t = t := by
  have hdata : (py_strip s).data = pyStripList s.data := rfl
  have hdne : pyStripList s.data ≠ [] := by
    intro h
    apply hne
    show String.mk (pyStripList s.data) = ""
    rw [h]
  intro t ht
  unfold naive_split at ht
  rw [List.mem_map] at ht
  obtain ⟨f, hf, rfl⟩ := ht
  rw [hdata] at hf
  have hclean := splitSentAux_clean (pyStripList s.data) (some [])
    ⟨by simp, by
      intro x hx
      exact pyStripList_getLast? s.data x (by simpa using hx),
      fun _ => ⟨hdne, pyStripList_head? s.data⟩⟩ f hf
  obtain ⟨hfne, hfh, hfl⟩ := hclean
  constructor
  · intro h
    apply hfne
    have : (String.mk f).data = ("" : String).data := by rw [h]
    simpa using this
  · show String.mk (pyStripList f) = String.mk f
    rw [pyStripList_eq_self f hfh hfl]

/-! ## The claims -/

/-- Claim C2, counterexample.  The claim describes the heuristic classifier
as comparing substring **occurrence counts** of the indicator words; the code
compares the numbers of indicator words that occur at all (at most one per
word).  On "enak enak tidak mahal" the code counts 1 positive word against 2
negative words and answers "negative", while occurrence counting gives 2–2
and would answer "neutral". -/
theorem fallback_sentiment_occurrence_counterexample :
    fallback_sentiment "enak enak tidak mahal" = ("negative", "fallback") ∧
    fallback_sentiment_claim "enak enak tidak mahal" = ("neutral", "fallback") :=
  ⟨rfl, rfl⟩

/-- Claim C2, amended: the heuristic classifier lowercases the text, counts
how many positive and how many negative indicator words occur in it as
case-insensitive substrings (each word contributing at most one, regardless
of how often it occurs), answers "positive" / "negative" when one count
strictly exceeds the other and "neutral" on a tie, and always carries the
fixed confidence tag "fallback".  It is a total function, so it never
raises. -/
theorem fallback_sentiment_presence_counts (text : String) :
    (fallback_sentiment text).2 = "fallback" ∧
    (fallback_sentiment text).1 =
      (let pos := (_positive_words.filter
          (fun w => 0 < countOccurrences (py_lower text) w)).length
       let neg := (_negative_words.filter
          (fun w => 0 < countOccurrences (py_lower text) w)).length
       if neg < pos then "positive"
       else if pos < neg then "negative"
       else "neutral") := by
  refine ⟨fallback_sentiment_tag text, ?_⟩
  have hpos : _positive_words.filter (fun w => strContains (py_lower text) w) =
      _positive_words.filter (fun w => 0 < countOccurrences (py_lower text) w) := by
    apply List.filter_congr
    intro w hw
    rw [strContains_eq_decide]
    fin_cases hw <;> decide
  have hneg : _negative_words.filter (fun w => strContains (py_lower text) w) =
      _negative_words.filter (fun w => 0 < countOccurrences (py_lower text) w) := by
    apply List.filter_congr
    intro w hw
    rw [strContains_eq_decide]
    fin_cases hw <;> decide
  unfold fallback_sentiment
  dsimp only
  rw [hpos, hneg]
  split
  · rfl
  · split <;> rfl

/-- Claim C7: with no configured credential, `load_gemini` answers `None`
without entering the initialization attempt (the instrumentation flag stays
`false`: no import, no configuration, no network call, no state change), and
`extract_key_points` proceeds directly to the summarizer tier. -/
theorem gemini_no_key (env : Env) (g : Globals) (text : String)
    (hkey : keyTruthy env.gemini_api_key = false) :
    load_gemini env g = (g, none, false) ∧
    extract_key_points env g text 5 = summarizer_key_points env g text 5 := by
  have h1 : load_gemini env g = (g, none, false) := by
    unfold load_gemini
    simp [hkey]
  refine ⟨h1, ?_⟩
  unfold extract_key_points
  rw [h1]

/-- Witness for claim C7 at a concrete environment with no credential. -/
theorem gemini_no_key_witness :
    keyTruthy envOff.gemini_api_key = false ∧
    load_gemini envOff Globals.init = (Globals.init, none, false) ∧
    extract_key_points envOff Globals.init "abc" 5 =
      summarizer_key_points envOff Globals.init "abc" 5 :=
  ⟨rfl, (gemini_no_key envOff Globals.init "abc" rfl).1,
    (gemini_no_key envOff Globals.init "abc" rfl).2⟩

/-- Claim C9: `get_reviews` answers with a permutation of the stored rows
(every stored record appears), ordered by creation time with the most recent
first, and its `count` field equals the length of the data array. -/
theorem get_reviews_ordered (db : List Review) :
    (get_reviews db).1 = (get_reviews db).2.length ∧
    (get_reviews db).2.Perm db ∧
    (get_reviews db).2.Pairwise
      (fun a b : Review => b.created_at ≤ a.created_at) := by
  refine ⟨rfl, List.mergeSort_perm db _, ?_⟩
  have h := @List.sorted_mergeSort Review
      (fun a b : Review => b.created_at ≤ a.created_at)
      (fun a b c hab hbc => by
        simp only [decide_eq_true_eq] at *
        omega)
      (fun a b => by simpa using Nat.le_total b.created_at a.created_at) db
  exact h.imp (by simp)

/-- Claim C1, counterexample.  The claim says a failed initialization is
cached as unavailable and never re-attempted.  In the code a failed attempt
leaves the module global at `None`, which is indistinguishable from
"never tried": starting from the initial state, a first call whose model
construction raises returns `None` with the state unchanged, and a second
call re-enters the initialization attempt (instrumentation flag `true`) and
comes back available — it neither short-circuits nor refrains from
retrying. -/
theorem lazy_init_retry_counterexample :
    load_transformers_sentiment envImportOnly Globals.init =
      (Globals.init, none, true) ∧
    (load_transformers_sentiment envSentimentOk
      (load_transformers_sentiment envImportOnly Globals.init).1).2 =
      (some (), true) :=
  ⟨rfl, rfl⟩

/-- Claim C1, amended: for each adapter, once an initialization attempt has
succeeded the instance is cached and subsequent calls return it without
re-entering the initialization attempt; a failed attempt, however, leaves
the cache unset and is not recorded, so every subsequent call (with the
dependency importable and, for Gemini, a credential configured) re-enters
the initialization attempt. -/
theorem lazy_init_caching (env env2 : Env) (g : Globals) :
    (g.sentiment_model = some () → env.transformers_import_ok = true →
      load_transformers_sentiment env g = (g, some (), false)) ∧
    (g.summary_model = some () → env.transformers_import_ok = true →
      load_transformers_summarizer env g = (g, some (), false)) ∧
    (g.gemini_client = some () → keyTruthy env.gemini_api_key = true →
      env.gemini_import_ok = true →
      load_gemini env g = (g, some (), false)) ∧
    (g.sentiment_model = none → env.transformers_import_ok = true →
      env.sentiment_load_ok = false →
      load_transformers_sentiment env g = (g, none, true) ∧
      (env2.transformers_import_ok = true →
        (load_transformers_sentiment env2
          (load_transformers_sentiment env g).1).2.2 = true)) ∧
    (g.summary_model = none → env.transformers_import_ok = true →
      env.summarizer_load_ok = false →
      load_transformers_summarizer env g = (g, none, true) ∧
      (env2.transformers_import_ok = true →
        (load_transformers_summarizer env2
          (load_transformers_summarizer env g).1).2.2 = true)) ∧
    (g.gemini_client = none → keyTruthy env.gemini_api_key = true →
      env.gemini_import_ok = true → env.gemini_configure_ok = false →
      load_gemini env g = (g, none, true) ∧
      (keyTruthy env2.gemini_api_key = true → env2.gemini_import_ok = true →
        (load_gemini env2 (load_gemini env g).1).2.2 = true)) := by
  refine ⟨?_, ?_, ?_, ?_, ?_, ?_⟩
  · intro hm himp
    unfold load_transformers_sentiment
    simp [himp, hm]
  · intro hm himp
    unfold load_transformers_summarizer
    simp [himp, hm]
  · intro hm hkey himp
    unfold load_gemini
    simp [hkey, himp, hm]
  · intro hm himp hload
    have h1 : load_transformers_sentiment env g = (g, none, true) := by
      unfold load_transformers_sentiment
      simp [himp, hm, hload]
    refine ⟨h1, fun himp2 => ?_⟩
    rw [h1]
    unfold load_transformers_sentiment
    rw [if_neg (by simp [himp2]), hm]
    split
    · rename_i heq
      exact Option.noConfusion heq
    · split <;> rfl
  · intro hm himp hload
    have h1 : load_transformers_summarizer env g = (g, none, true) := by
      unfold load_transformers_summarizer
      simp [himp, hm, hload]
    refine ⟨h1, fun himp2 => ?_⟩
    rw [h1]
    unfold load_transformers_summarizer
    rw [if_neg (by simp [himp2]), hm]
    split
    · rename_i heq
      exact Option.noConfusion heq
    · split <;> rfl
  · intro hm hkey himp hcfg
    have h1 : load_gemini env g = (g, none, true) := by
      unfold load_gemini
      simp [hkey, himp, hm, hcfg]
    refine ⟨h1, fun hkey2 himp2 => ?_⟩
    rw [h1]
    unfold load_gemini
    rw [if_neg (by simp [hkey2]), if_neg (by simp [himp2]), hm]
    split
    · rename_i heq
      exact Option.noConfusion heq
    · split <;> rfl

/-- Witness for the amended claim C1: a cached success short-circuits
without re-attempting; after a failed attempt the state is unchanged and the
next call re-enters the initialization attempt. -/
theorem lazy_init_caching_witness :
    load_transformers_sentiment envImportOnly ⟨some (), none, none⟩ =
      (⟨some (), none, none⟩, some (), false) ∧
    load_transformers_sentiment envImportOnly Globals.init =
      (Globals.init, none, true) ∧
    (load_transformers_sentiment envSentimentOk
      (load_transformers_sentiment envImportOnly Globals.init).1).2.2 = true := by
  have hc := (lazy_init_caching envImportOnly envSentimentOk
    ⟨some (), none, none⟩).1 rfl rfl
  have hf := (lazy_init_caching envImportOnly envSentimentOk
    Globals.init).2.2.2.1 rfl rfl rfl
  exact ⟨hc, hf.1, hf.2 rfl⟩

/-- Result of the `or`-chain when both the `review_text` and the `content`
fields are absent or hold strings that strip to empty. -/
theorem get_review_text_blank (payload : List (String × JVal))
    (hrt : dictGet payload "review_text" = none ∨
      ∃ s, dictGet payload "review_text" = some (.jstr s) ∧ py_strip s = "")
    (hct : dictGet payload "content" = none ∨
      ∃ s, dictGet payload "content" = some (.jstr s) ∧ py_strip s = "") :
    ∃ s, get_review_text payload = .jstr s ∧ py_strip s = "" := by
  have hcontent : ∃ s,
      (if optTruthy (dictGet payload "content") then
        (dictGet payload "content").getD (.jstr "")
      else (.jstr "" : JVal)) = .jstr s ∧ py_strip s = "" := by
    rcases hct with h | ⟨t, ht, hte⟩
    · rw [h]
      exact ⟨"", rfl, rfl⟩
    · rw [ht]
      by_cases htriv : t = ""
      · subst htriv
        exact ⟨"", by simp [optTruthy, JVal.truthy], rfl⟩
      · exact ⟨t, by simp [optTruthy, JVal.truthy, htriv], hte⟩
  unfold get_review_text
  rcases hrt with h | ⟨s, hs, hse⟩
  · rw [h]
    simpa [optTruthy] using hcontent
  · rw [hs]
    by_cases hsriv : s = ""
    · subst hsriv
      simpa [optTruthy, JVal.truthy] using hcontent
    · exact ⟨s, by simp [optTruthy, JVal.truthy, hsriv], hse⟩

/-- Claim C6: when `review_text` (and its synonym `content`) is absent or
strips to the empty string, the handler answers 400 with the validation
error body and the database is unchanged — no `Review` row is created. -/
theorem analyze_review_blank_400 (env : Env) (g : Globals) (db : List Review)
    (payload : List (String × JVal)) (now : ℕ)
    (hrt : dictGet payload "review_text" = none ∨
      ∃ s, dictGet payload "review_text" = some (.jstr s) ∧ py_strip s = "")
    (hct : dictGet payload "content" = none ∨
      ∃ s, dictGet payload "content" = some (.jstr s) ∧ py_strip s = "") :
    analyze_review env g db payload now = (g, db, .badRequest requiredFieldError) := by
  obtain ⟨s, hs, hse⟩ := get_review_text_blank payload hrt hct
  unfold analyze_review
  rw [hs]
  simp [hse]

/-- Witness for claim C6: the whitespace-only body of the specification's
boundary example is rejected with a 400 and stores nothing. -/
theorem analyze_review_blank_400_witness :
    py_strip "   " = "" ∧
    analyze_review envOff Globals.init [] [("review_text", JVal.jstr "   ")] 0 =
      (Globals.init, [], .badRequest requiredFieldError) :=
  ⟨rfl, analyze_review_blank_400 envOff Globals.init []
    [("review_text", JVal.jstr "   ")] 0 (Or.inr ⟨"   ", rfl, rfl⟩) (Or.inl rfl)⟩

/-- Claim C8: every accepted submission appends exactly one row holding the
submitted text stripped, answers 200 with that row, and an immediately
following `get_reviews` lists a record whose `review_text` is the stripped
text. -/
theorem analyze_review_roundtrip (env : Env) (g : Globals) (db : List Review)
    (payload : List (String × JVal)) (now : ℕ) (s : String)
    (hres : get_review_text payload = .jstr s) (hne : py_strip s ≠ "") :
    ∃ row : Review,
      (analyze_review env g db payload now).2 = (db ++ [row], .ok row) ∧
      row.review_text = py_strip s ∧
      row ∈ (get_reviews (db ++ [row])).2 := by
  unfold analyze_review
  rw [hres]
  rcases h1 : analyze_sentiment env g s with ⟨g1, sent, conf⟩
  rcases h2 : extract_key_points env g1 s 5 with ⟨g2, kp⟩
  refine ⟨⟨nextId db, py_strip s, sent, conf, kp, now⟩, ?_, rfl, ?_⟩
  · simp [hne, h1, h2]
  · unfold get_reviews
    exact List.mem_mergeSort.mpr (by simp)

/-- Witness for claim C8 at a concrete accepted submission. -/
theorem analyze_review_roundtrip_witness :
    get_review_text [("review_text", JVal.jstr " enak ")] = .jstr " enak " ∧
    py_strip " enak " ≠ "" ∧
    ∃ row : Review,
      (analyze_review envOff Globals.init []
        [("review_text", JVal.jstr " enak ")] 3).2 = ([row], .ok row) ∧
      row.review_text = py_strip " enak " ∧
      row ∈ (get_reviews [row]).2 := by
  have h := analyze_review_roundtrip envOff Globals.init []
    [("review_text", JVal.jstr " enak ")] 3 " enak " rfl (by decide)
  obtain ⟨row, h1, h2, h3⟩ := h
  exact ⟨rfl, by decide, ⟨row, by simpa using h1, h2, by simpa using h3⟩⟩

/-- Claim C10, counterexample.  The claim says a present non-string
`review_text` always draws the 400 validation answer.  A falsy non-string
value (here `false`) is skipped by the `or`-chain, so a string `content`
field takes over and the request succeeds with a 200 and a stored row. -/
theorem nonstring_review_text_counterexample :
    dictGet [("review_text", JVal.jbool false), ("content", JVal.jstr "enak!")]
      "review_text" = some (JVal.jbool false) ∧
    analyze_review envOff Globals.init []
      [("review_text", JVal.jbool false), ("content", JVal.jstr "enak!")] 0 =
      (Globals.init, [⟨1, "enak!", "positive", "fallback", "- enak!", 0⟩],
        .ok ⟨1, "enak!", "positive", "fallback", "- enak!", 0⟩) :=
  ⟨rfl, rfl⟩

/-- Claim C10, amended: a present, non-string and truthy `review_text` value
draws the 400 validation answer with the database unchanged; a falsy
non-string value is treated by the `or`-chain exactly as an absent field
(deferring to `content`); and in every case the handler answers 400 or 200 —
it neither raises nor answers 500. -/
theorem nonstring_review_text (env : Env) (g : Globals) (db : List Review)
    (payload : List (String × JVal)) (now : ℕ) (v : JVal)
    (hget : dictGet payload "review_text" = some v)
    (hnstr : ∀ s, v ≠ JVal.jstr s) :
    (v.truthy = true →
      analyze_review env g db payload now = (g, db, .badRequest requiredFieldError)) ∧
    (v.truthy = false →
      get_review_text payload =
        (match dictGet payload "content" with
         | some w => if w.truthy then w else .jstr ""
         | none => .jstr "")) ∧
    ((∃ e, (analyze_review env g db payload now).2.2 = .badRequest e) ∨
      (∃ row, (analyze_review env g db payload now).2.2 = .ok row)) := by
  refine ⟨?_, ?_, ?_⟩
  · intro htr
    have hres : get_review_text payload = v := by
      unfold get_review_text
      simp [hget, optTruthy, htr]
    unfold analyze_review
    rw [hres]
    cases v with
    | jstr s => exact absurd rfl (hnstr s)
    | jnum q => rfl
    | jbool b => rfl
    | jnull => rfl
    | jarr xs => rfl
    | jobj fields => rfl
  · intro hfa
    unfold get_review_text
    rw [hget]
    simp only [optTruthy, hfa, if_false]
    cases hc : dictGet payload "content" with
    | none => simp [optTruthy]
    | some w =>
        cases hw : w.truthy with
        | false => simp [optTruthy, hw]
        | true => simp [optTruthy, hw]
  · rcases h : (analyze_review env g db payload now).2.2 with e | r
    · exact Or.inr ⟨e, rfl⟩
    · exact Or.inl ⟨r, rfl⟩

/-- Witness for the amended claim C10: a truthy non-string `review_text`
(the boolean `true`) draws the 400 validation answer and stores nothing. -/
theorem nonstring_review_text_witness :
    (JVal.jbool true).truthy = true ∧
    analyze_review envOff Globals.init []
      [("review_text", JVal.jbool true)] 0 =
      (Globals.init, [], .badRequest requiredFieldError) := by
  have h := nonstring_review_text envOff Globals.init []
    [("review_text", JVal.jbool true)] 0 (JVal.jbool true) rfl
    (fun s hs => JVal.noConfusion hs)
  exact ⟨rfl, h.1 rfl⟩

/-- Claim C3: when the summarizer tier serves the key points, the summary is
split on the sentence-terminal "." separator, fragments are stripped, empty
fragments are discarded, and at most 5 (the source's default `max_points`)
survive, each emitted as a `"- "`-prefixed bullet line. -/
theorem summarizer_key_points_bullets (env : Env) (g : Globals)
    (text summary : String)
    (himp : env.transformers_import_ok = true)
    (hmodel : g.summary_model = some () ∨ env.summarizer_load_ok = true)
    (hsum : env.summarize text = some summary) :
    (summarizer_key_points env g text 5).2 =
      String.intercalate "\n"
        ((((splitOnChar '.' summary.data).map (fun l => py_strip ⟨l⟩)).filter
            (fun s => s ≠ "")).take 5 |>.map (fun b => "- " ++ b)) ∧
    ((((splitOnChar '.' summary.data).map (fun l => py_strip ⟨l⟩)).filter
        (fun s => s ≠ "")).take 5).length ≤ 5 ∧
    (∀ b ∈ (((splitOnChar '.' summary.data).map (fun l => py_strip ⟨l⟩)).filter
        (fun s => s ≠ "")).take 5,
      b ≠ "" ∧ b ∈ ((splitOnChar '.' summary.data).map
        (fun l => py_strip ⟨l⟩)).filter (fun s => s ≠ "")) := by
  have hld : ∃ g' b, load_transformers_summarizer env g = (g', some (), b) := by
    unfold load_transformers_summarizer
    rw [if_neg (by simp [himp])]
    cases hsm : g.summary_model with
    | some m => exact ⟨g, false, rfl⟩
    | none =>
        rcases hmodel with hm | hok
        · rw [hsm] at hm
          exact Option.noConfusion hm
        · rw [hok]
          exact ⟨_, true, rfl⟩
  obtain ⟨g', b, hld⟩ := hld
  refine ⟨?_, ?_, ?_⟩
  · unfold summarizer_key_points
    rw [hld, hsum]
  · rw [List.length_take]
    exact Nat.min_le_left ..
  · intro x hx
    have hmem := List.take_subset 5 _ hx
    exact ⟨by simpa using (List.mem_filter.mp hmem).2, hmem⟩

/-- Witness for claim C3 at a concrete environment whose summarizer answers
a three-sentence summary of which all three survive as bullets. -/
theorem summarizer_key_points_bullets_witness :
    (summarizer_key_points
        { envOff with
          transformers_import_ok := true
          summarizer_load_ok := true
          summarize := fun _ => some "Enak. Murah.  Cepat." }
        Globals.init "apa saja" 5).2 =
      String.intercalate "\n"
        ((((splitOnChar '.' ("Enak. Murah.  Cepat.").data).map
            (fun l => py_strip ⟨l⟩)).filter (fun s => s ≠ "")).take 5
          |>.map (fun b => "- " ++ b)) := by
  have h := summarizer_key_points_bullets
    { envOff with
      transformers_import_ok := true
      summarizer_load_ok := true
      summarize := fun _ => some "Enak. Murah.  Cepat." }
    Globals.init "apa saja" "Enak. Murah.  Cepat." rfl (Or.inr rfl) rfl
  exact h.1

/-- Claim C4: `analyze_sentiment` always answers one of the three sentiment
labels and, being a total function of its environment, never raises.  With
the local classifier available the model is applied to the input truncated
to 512 characters and the lowercased label is mapped by substring match on
"pos" / "neg" (anything else is neutral) with the score formatted as a
two-decimal percentage string; a raised inference call or an unavailable
model degrades to the heuristic classifier. -/
theorem analyze_sentiment_contract (env : Env) (g : Globals) (text : String)
    (_hne : text ≠ "") :
    ((analyze_sentiment env g text).2.1 = "positive" ∨
     (analyze_sentiment env g text).2.1 = "negative" ∨
     (analyze_sentiment env g text).2.1 = "neutral") ∧
    (∀ label score, (load_transformers_sentiment env g).2.1 = some () →
      env.sentiment_infer (py_take 512 text) = some (label, score) →
      (analyze_sentiment env g text).2 =
        ((if strContains (py_lower label) "pos" then "positive"
          else if strContains (py_lower label) "neg" then "negative"
          else "neutral"), format_pct score)) ∧
    ((load_transformers_sentiment env g).2.1 = none →
      (analyze_sentiment env g text).2 = fallback_sentiment text) ∧
    ((load_transformers_sentiment env g).2.1 = some () →
      env.sentiment_infer (py_take 512 text) = none →
      (analyze_sentiment env g text).2 = fallback_sentiment text) ∧
    (∀ q : ℚ, ∃ whole frac : String,
      format_pct q = whole ++ "." ++ frac ++ "%" ∧ frac.length = 2) := by
  have hexp : ∀ t : Globals × Option Unit × Bool,
      load_transformers_sentiment env g = t →
      analyze_sentiment env g text =
        (match t with
         | (g1, model, _) =>
            match model with
            | some _ =>
                match env.sentiment_infer (py_take 512 text) with
                | some (label, score) =>
                    let l := py_lower label
                    if strContains l "pos" then (g1, "positive", format_pct score)
                    else if strContains l "neg" then
                      (g1, "negative", format_pct score)
                    else (g1, "neutral", format_pct score)
                | none => (g1, fallback_sentiment text)
            | none => (g1, fallback_sentiment text)) := by
    intro t ht
    unfold analyze_sentiment
    rw [ht]
  rcases hld : load_transformers_sentiment env g with ⟨g', model, flag⟩
  have hred := hexp (g', model, flag) hld
  refine ⟨?_, ?_, ?_, ?_, ?_⟩
  · rw [hred]
    cases model with
    | none => exact fallback_sentiment_label text
    | some m =>
        cases env.sentiment_infer (py_take 512 text) with
        | none => exact fallback_sentiment_label text
        | some p =>
            rcases p with ⟨label, score⟩
            dsimp only
            split
            · exact Or.inl rfl
            · split
              · exact Or.inr (Or.inl rfl)
              · exact Or.inr (Or.inr rfl)
  · intro label score hmodel hinf
    have hm : model = some () := hmodel
    subst hm
    rw [hred, hinf]
    dsimp only
    split
    · rfl
    · split <;> rfl
  · intro hmodel
    have hm : model = none := hmodel
    subst hm
    rw [hred]
  · intro hmodel hinf
    have hm : model = some () := hmodel
    subst hm
    rw [hred, hinf]
  · intro q
    by_cases hq : q < 0
    · refine ⟨"-" ++ toString ((round (-q * 10000) : ℤ).toNat / 100),
        String.mk [Nat.digitChar ((round (-q * 10000) : ℤ).toNat / 10 % 10),
          Nat.digitChar ((round (-q * 10000) : ℤ).toNat % 10)], ?_, rfl⟩
      unfold format_pct format_pct_nonneg
      rw [if_pos hq]
      rw [← String.append_assoc, ← String.append_assoc, ← String.append_assoc]
    · refine ⟨toString ((round (q * 10000) : ℤ).toNat / 100),
        String.mk [Nat.digitChar ((round (q * 10000) : ℤ).toNat / 10 % 10),
          Nat.digitChar ((round (q * 10000) : ℤ).toNat % 10)], ?_, rfl⟩
      unfold format_pct format_pct_nonneg
      rw [if_neg hq]

/-- Witness for claim C4 at a concrete environment whose classifier answers
the label "POSITIVE". -/
theorem analyze_sentiment_contract_witness :
    ("makanan oke" : String) ≠ "" ∧
    (analyze_sentiment
      { envOff with
        transformers_import_ok := true
        sentiment_load_ok := true
        sentiment_infer := fun _ => some ("POSITIVE", 1) }
      Globals.init "makanan oke").2 =
      ((if strContains (py_lower "POSITIVE") "pos" then "positive"
        else if strContains (py_lower "POSITIVE") "neg" then "negative"
        else "neutral"), format_pct 1) := by
  have h := analyze_sentiment_contract
    { envOff with
      transformers_import_ok := true
      sentiment_load_ok := true
      sentiment_infer := fun _ => some ("POSITIVE", 1) }
    Globals.init "makanan oke" (by decide)
  exact ⟨by decide, h.2.1 "POSITIVE" 1 rfl rfl⟩

/-- Scanning a fragment in progress, the naive splitter never splits when no
sentence-terminal character is in sight: the whole rest becomes one
fragment. -/
theorem splitSentAux_no_sentEnd (l : List Char) (acc : List Char)
    (hacc : ∀ c ∈ acc, isSentEnd c = false)
    (hl : ∀ c ∈ l, isSentEnd c = false) :
    splitSentAux l (some acc) = [acc.reverse ++ l] := by
  induction l generalizing acc with
  | nil => simp [splitSentAux]
  | cons c rest ih =>
      have hcond : (pyWhitespace c && accSentEnd acc) = false := by
        cases acc with
        | nil => simp [accSentEnd]
        | cons p t =>
            have hp := hacc p (by simp)
            simp [accSentEnd, hp]
      show (if pyWhitespace c && accSentEnd acc then
          acc.reverse :: splitSentAux rest none
        else splitSentAux rest (some (c :: acc))) = [acc.reverse ++ c :: rest]
      rw [hcond]
      simp only [Bool.false_eq_true, if_false]
      rw [ih (c :: acc)
        (by
          intro x hx
          rcases List.mem_cons.mp hx with rfl | hx2
          · exact hl x (by simp)
          · exact hacc x hx2)
        (fun x hx => hl x (List.mem_cons_of_mem _ hx))]
      simp

/-- The naive split of a text with no sentence-terminal punctuation is the
text itself as a single fragment. -/
theorem naive_split_no_sentEnd (s : String)
    (h : ∀ c ∈ s.data, isSentEnd c = false) : naive_split s = [s] := by
  obtain ⟨l⟩ := s
  unfold naive_split
  rw [splitSentAux_no_sentEnd l [] (by simp) h]
  simp

/-- Claim C5: the key-point tiers are tried in strict priority order — the
remote generative tier serves the stripped generated text when its loader
yields a client and the call answers; the summarizer tier is entered exactly
when the remote tier is unavailable or its call raises; the naive fallback is
entered exactly when the summarizer is unavailable or its call raises.  The
naive fallback bullets the (at most 5) first split fragments whose strip is
non-empty — and on non-blank input every split fragment is a non-empty
sentence equal to its own strip, so these are exactly the first at-most-5
non-empty sentences; on input with no sentence-terminal punctuation it answers one
fixed deterministic result: a single bullet holding the whole stripped text
(the empty string when the text strips to nothing).  Every tier outcome is a
plain string; the embedding is total, so no exception escapes. -/
theorem extract_key_points_tiers (env : Env) (g : Globals) (text kp : String) :
    ((load_gemini env g).2.1 = some () →
      env.gemini_generate (gemini_prompt 5 text) = some kp →
      extract_key_points env g text 5 = ((load_gemini env g).1, py_strip kp)) ∧
    ((load_gemini env g).2.1 = none ∨
        env.gemini_generate (gemini_prompt 5 text) = none →
      extract_key_points env g text 5 =
        summarizer_key_points env (load_gemini env g).1 text 5) ∧
    (∀ g2, (load_transformers_summarizer env g2).2.1 = none ∨
        env.summarize text = none →
      summarizer_key_points env g2 text 5 =
        ((load_transformers_summarizer env g2).1, naive_key_points text 5)) ∧
    (naive_key_points text 5 = String.intercalate "\n"
        ((((naive_split (py_strip text)).take 5).filter
            (fun s => py_strip s ≠ "")).map (fun s => "- " ++ py_strip s)) ∧
      ((naive_split (py_strip text)).take 5).length ≤ 5 ∧
      (py_strip text ≠ "" → ∀ s ∈ (naive_split (py_strip text)).take 5,
        s ≠ "" ∧ py_strip s = s)) ∧
    ((∀ c ∈ text.data, isSentEnd c = false) →
      naive_key_points text 5 =
        if py_strip text = "" then "" else "- " ++ py_strip text) := by
  have hexp : ∀ t : Globals × Option Unit × Bool, load_gemini env g = t →
      extract_key_points env g text 5 =
        (match t with
         | (g1, gem, _) =>
            match gem with
            | some _ =>
                match env.gemini_generate (gemini_prompt 5 text) with
                | some kp2 => (g1, py_strip kp2)
                | none => summarizer_key_points env g1 text 5
            | none => summarizer_key_points env g1 text 5) := by
    intro t ht
    unfold extract_key_points
    rw [ht]
  have hexp2 : ∀ (g2 : Globals) (t : Globals × Option Unit × Bool),
      load_transformers_summarizer env g2 = t →
      summarizer_key_points env g2 text 5 =
        (match t with
         | (g1, summarizer, _) =>
            match summarizer with
            | some _ =>
                match env.summarize text with
                | some summary =>
                    let bullets := ((splitOnChar '.' summary.data).map
                      (fun l => py_strip ⟨l⟩)).filter (fun s => s ≠ "")
                    (g1, String.intercalate "\n"
                      ((bullets.take 5).map (fun b => "- " ++ b)))
                | none => (g1, naive_key_points text 5)
            | none => (g1, naive_key_points text 5)) := by
    intro g2 t ht
    unfold summarizer_key_points
    rw [ht]
  refine ⟨?_, ?_, ?_, ⟨rfl, ?_, ?_⟩, ?_⟩
  · intro hgem hgen
    rcases hld : load_gemini env g with ⟨g1, gem, b⟩
    rw [hld] at hgem
    have hg : gem = some () := hgem
    subst hg
    rw [hexp (g1, some (), b) hld, hgen]
  · intro hfall
    rcases hld : load_gemini env g with ⟨g1, gem, b⟩
    rcases hfall with hgem | hgen
    · rw [hld] at hgem
      have hg : gem = none := hgem
      subst hg
      exact hexp (g1, none, b) hld
    · cases gem with
      | none => exact hexp (g1, none, b) hld
      | some m =>
          rw [hexp (g1, some m, b) hld, hgen]
  · intro g2 hfall
    rcases hld : load_transformers_summarizer env g2 with ⟨g1, summarizer, b⟩
    rcases hfall with hsm | hsum
    · rw [hld] at hsm
      have hs : summarizer = none := hsm
      subst hs
      exact hexp2 g2 (g1, none, b) hld
    · cases summarizer with
      | none => exact hexp2 g2 (g1, none, b) hld
      | some m =>
          rw [hexp2 g2 (g1, some m, b) hld, hsum]
  · rw [List.length_take]
    exact Nat.min_le_left ..
  · intro hne s hs
    exact naive_split_clean text hne s (List.take_subset 5 _ hs)
  · intro hnp
    have hs : ∀ c ∈ (py_strip text).data, isSentEnd c = false := by
      intro c hc
      exact hnp c (pyStripList_subset text.data c hc)
    unfold naive_key_points
    rw [naive_split_no_sentEnd _ hs]
    by_cases he : py_strip text = ""
    · rw [if_pos he, he]
      rfl
    · rw [if_neg he]
      have hidem := py_strip_idem text
      have hone : (([py_strip text].take 5).filter
          (fun s => py_strip s ≠ "")).map (fun s => "- " ++ py_strip s) =
          ["- " ++ py_strip text] := by
        simp [hidem, he]
      show String.intercalate "\n"
          ((([py_strip text].take 5).filter
            (fun s => py_strip s ≠ "")).map (fun s => "- " ++ py_strip s)) =
          "- " ++ py_strip text
      rw [hone]
      rfl

/-- Witness for claim C5: with everything unavailable, the pipeline falls to
the naive tier, and the no-punctuation example of the specification yields a
single bullet holding the whole text. -/
theorem extract_key_points_tiers_witness :
    extract_key_points envOff Globals.init "no punctuation at all" 5 =
      summarizer_key_points envOff Globals.init "no punctuation at all" 5 ∧
    summarizer_key_points envOff Globals.init "no punctuation at all" 5 =
      (Globals.init, naive_key_points "no punctuation at all" 5) ∧
    naive_key_points "no punctuation at all" 5 =
      (if py_strip "no punctuation at all" = "" then ""
       else "- " ++ py_strip "no punctuation at all") := by
  have h := extract_key_points_tiers envOff Globals.init "no punctuation at all" ""
  refine ⟨h.2.1 (Or.inl rfl), ?_, h.2.2.2.2 (by decide)⟩
  have h3 := h.2.2.1 Globals.init (Or.inl rfl)
  simpa using h3

end FoodReview
